import Mathlib

/-!
Verification of the SEIR Covid-19 model notebook ("Covid-19 Model Ireland").

The notebook has two components: a reproduction-number estimator built from the
next-generation matrices `F`, `V` with `G = F * V⁻¹` and `R_0` the maximal
eigenvalue of `G`, and a trajectory integrator that passes the derivative
function `SEIR` to `scipy.integrate.odeint`.  Machine floats are modelled as
exact rationals.
-/

namespace Covid

/-- The six-compartment state vector `y = (S, E, Ip, Ia, Is, R)` of the model. -/
structure State where
  S : ℚ
  E : ℚ
  Ip : ℚ
  Ia : ℚ
  Is : ℚ
  R : ℚ
deriving DecidableEq

/-- The derivative function, translated from the notebook:
`def SEIR(y, t, betaP, betaA, betaS, tauE, tauP, tauI, tauD, f, d, N)` returning
`dydt = [-(S/N)*(betaP*Ip + betaA*Ia + betaS*Is), (S/N)*(betaP*Ip + betaA*Ia + betaS*Is) - (1/tauE)*E, (1/tauE)*E - (1/tauP)*Ip, (f/tauP)*Ip - (1/tauI)*Ia, ((1-f)/tauP)*Ip - ((1-d)/tauI)*Is - (d/tauD)*Is, (1/tauI)*Ia + ((1-d)/tauI)*Is]`.
The time argument `t` is unused by the body, exactly as in the source. -/
def SEIR (y : State) (t betaP betaA betaS tauE tauP tauI tauD f d N : ℚ) : State :=
  { S := -(y.S/N)*(betaP*y.Ip + betaA*y.Ia + betaS*y.Is)
    E := (y.S/N)*(betaP*y.Ip + betaA*y.Ia + betaS*y.Is) - (1/tauE)*y.E
    Ip := (1/tauE)*y.E - (1/tauP)*y.Ip
    Ia := (f/tauP)*y.Ip - (1/tauI)*y.Ia
    Is := ((1-f)/tauP)*y.Ip - ((1-d)/tauI)*y.Is - (d/tauD)*y.Is
    R := (1/tauI)*y.Ia + ((1-d)/tauI)*y.Is }

/-- Sum of the six components of a state vector. -/
def State.total (y : State) : ℚ := y.S + y.E + y.Ip + y.Ia + y.Is + y.R

/-- C1: the six components of the derivative returned by `SEIR` do NOT always sum
to zero: at the notebook parameter set (d = 1/20, tauD = 14) and the state with
`Is = 1` and all other compartments zero, the sum is `-1/280`. -/
theorem c1_counterexample :
    (SEIR ⟨0, 0, 0, 0, 1, 0⟩ 0 (4/5) (4/5) (4/5) (7/2) (3/2) (7/2) 14 (3/10) (1/20)
      4900000).total ≠ 0 := by
  norm_num [SEIR, State.total]

/-- C1 (amended): for every state vector and every parameter set the six
components of the derivative returned by `SEIR` sum to `-(d/tauD)*Is`, so the
total population is conserved only when `d * Is = 0` (or the quotient `d/tauD`
vanishes); deaths are removed from the closed population total, not folded
into `R`. -/
theorem c1_mass_balance (y : State)
    (t betaP betaA betaS tauE tauP tauI tauD f d N : ℚ) :
    (SEIR y t betaP betaA betaS tauE tauP tauI tauD f d N).total = -(d/tauD) * y.Is := by
  simp only [SEIR, State.total]
  ring

/-- The six right-hand sides exactly as the specification writes them
(spec-side definition, used only for the comparison in C3). -/
def specDeriv (y : State) (betaP betaA betaS tauE tauP tauI tauD f d N : ℚ) : State :=
  { S := -(y.S/N)*(betaP*y.Ip + betaA*y.Ia + betaS*y.Is)
    E := (y.S/N)*(betaP*y.Ip + betaA*y.Ia + betaS*y.Is) - y.E/tauE
    Ip := y.E/tauE - y.Ip/tauP
    Ia := f*y.Ip/tauP - y.Ia/tauI
    Is := (1-f)*y.Ip/tauP - (1-d)*y.Is/tauI - d*y.Is/tauD
    R := y.Ia/tauI + (1-d)*y.Is/tauI }

/-- C3: for every state and every parameter set, `SEIR` returns exactly the six
right-hand sides specified for dS/dt, dE/dt, dIp/dt, dIa/dt, dIs/dt, dR/dt. -/
theorem c3_SEIR_rhs (y : State) (t betaP betaA betaS tauE tauP tauI tauD f d N : ℚ) :
    SEIR y t betaP betaA betaS tauE tauP tauI tauD f d N =
      specDeriv y betaP betaA betaS tauE tauP tauI tauD f d N := by
  simp only [SEIR, specDeriv, State.mk.injEq]
  refine ⟨by ring, by ring, by ring, by ring, by ring, by ring⟩

/-- One explicit-Euler step `y + h * rhs y t` of the derivative function. -/
def eulerStep (rhs : State → ℚ → State) (y : State) (t h : ℚ) : State :=
  ⟨y.S + h * (rhs y t).S, y.E + h * (rhs y t).E, y.Ip + h * (rhs y t).Ip,
    y.Ia + h * (rhs y t).Ia, y.Is + h * (rhs y t).Is, y.R + h * (rhs y t).R⟩

/-- Modelled from the spec: `scipy.integrate.odeint` (the numeric solver called
by the notebook, whose code is not part of this repository) is modelled as an
explicit single-step method on the requested time grid.  It returns one state
per requested time point, the first being the initial state, and performs no
validation of the initial state whatsoever, exactly like the notebook call
`sol = odeint(SEIR, y0, t, args=(...))`. -/
def odeint (rhs : State → ℚ → State) (y0 : State) : List ℚ → List State
  | [] => []
  | [_] => [y0]
  | t1 :: t2 :: ts => y0 :: odeint rhs (eulerStep rhs y0 t1 (t2 - t1)) (t2 :: ts)

/-- The integrator produces exactly one state per requested time point, for any
initial state: there is no validation and no failure path. -/
theorem odeint_length (rhs : State → ℚ → State) (y0 : State) :
    ∀ ts : List ℚ, (odeint rhs y0 ts).length = ts.length
  | [] => rfl
  | [_] => rfl
  | t1 :: t2 :: ts => by
      simp only [odeint, List.length_cons]
      rw [odeint_length rhs (eulerStep rhs y0 t1 (t2 - t1)) (t2 :: ts)]
      simp

/-- If every Euler step fixes `y0`, the whole trajectory is constant. -/
theorem odeint_fixed (rhs : State → ℚ → State) (y0 : State)
    (hstep : ∀ t h, eulerStep rhs y0 t h = y0) :
    ∀ ts : List ℚ, odeint rhs y0 ts = List.replicate ts.length y0
  | [] => rfl
  | [_] => rfl
  | t1 :: t2 :: ts => by
      simp only [odeint, hstep, List.length_cons]
      rw [odeint_fixed rhs y0 hstep (t2 :: ts)]
      rfl

/-- C6: at a disease-free state (`E = Ip = Ia = Is = 0`, any `S` and `R`) the
derivative returned by `SEIR` is the all-zero vector, and the integrated
trajectory started there is constant at the initial state for every requested
time grid. -/
theorem c6_disease_free (Sv Rv : ℚ)
    (t betaP betaA betaS tauE tauP tauI tauD f d N : ℚ) (ts : List ℚ) :
    SEIR ⟨Sv, 0, 0, 0, 0, Rv⟩ t betaP betaA betaS tauE tauP tauI tauD f d N =
      ⟨0, 0, 0, 0, 0, 0⟩ ∧
    odeint (fun y τ => SEIR y τ betaP betaA betaS tauE tauP tauI tauD f d N)
        ⟨Sv, 0, 0, 0, 0, Rv⟩ ts =
      List.replicate ts.length ⟨Sv, 0, 0, 0, 0, Rv⟩ := by
  have hz : ∀ τ, SEIR ⟨Sv, 0, 0, 0, 0, Rv⟩ τ betaP betaA betaS tauE tauP tauI tauD f d N =
      ⟨0, 0, 0, 0, 0, 0⟩ := by
    intro τ
    simp [SEIR]
  refine ⟨hz t, odeint_fixed _ _ (fun τ h => ?_) ts⟩
  simp [eulerStep, hz]

/-- C7: the R-component of the derivative is non-negative whenever
`Ia ≥ 0`, `Is ≥ 0`, `tauI > 0` and `0 ≤ d ≤ 1`. -/
theorem c7_R_nonneg (y : State) (t betaP betaA betaS tauE tauP tauI tauD f d N : ℚ)
    (hIa : 0 ≤ y.Ia) (hIs : 0 ≤ y.Is) (hI : 0 < tauI) (hd0 : 0 ≤ d) (hd1 : d ≤ 1) :
    0 ≤ (SEIR y t betaP betaA betaS tauE tauP tauI tauD f d N).R := by
  show 0 ≤ (1/tauI)*y.Ia + ((1-d)/tauI)*y.Is
  have h1 : 0 ≤ (1/tauI)*y.Ia := mul_nonneg (by positivity) hIa
  have h2 : 0 ≤ ((1-d)/tauI)*y.Is :=
    mul_nonneg (div_nonneg (by linarith) hI.le) hIs
  linarith

/-- Witness for C7 at a concrete state and parameter set. -/
theorem c7_R_nonneg_witness :
    0 ≤ (SEIR ⟨100, 2, 3, 1, 1, 0⟩ 0 (4/5) (4/5) (4/5) (7/2) (3/2) (7/2) 14 (3/10)
      (1/20) 4900000).R :=
  c7_R_nonneg ⟨100, 2, 3, 1, 1, 0⟩ 0 (4/5) (4/5) (4/5) (7/2) (3/2) (7/2) 14 (3/10)
    (1/20) 4900000 (by norm_num) (by norm_num) (by norm_num) (by norm_num) (by norm_num)

/-- The transition matrix, translated from the notebook:
`V = np.array([[1/tauE,0,0,0],[-1/tauE,1/tauP,0,0],[0,-f/tauP,1/tauI,0],[0,-(1-f)/tauP,0,(1-d)/tauI + d/tauD]])`. -/
def V (tauE tauP tauI tauD f d : ℚ) : Matrix (Fin 4) (Fin 4) ℚ :=
  !![1/tauE, 0, 0, 0;
     -1/tauE, 1/tauP, 0, 0;
     0, -f/tauP, 1/tauI, 0;
     0, -(1-f)/tauP, 0, (1-d)/tauI + d/tauD]

/-- The transmission matrix, translated from the notebook:
`F = np.array([[0,betaP,betaA,betaA],[0,0,0,0],[0,0,0,0],[0,0,0,0]])`.
Note that `betaS` does not occur: the source uses `betaA` in the last column. -/
def F (betaP betaA : ℚ) : Matrix (Fin 4) (Fin 4) ℚ :=
  !![0, betaP, betaA, betaA;
     0, 0, 0, 0;
     0, 0, 0, 0;
     0, 0, 0, 0]

/-- The `numpy.linalg.inv` call modelled as the exact matrix inverse of a 4x4
rational matrix, adjugate over determinant. -/
def inv4 (A : Matrix (Fin 4) (Fin 4) ℚ) : Matrix (Fin 4) (Fin 4) ℚ :=
  A.det⁻¹ • A.adjugate

/-- The next-generation matrix, translated from `G = np.matmul(F, la.inv(V))`.
Like the notebook globals, `betaS` is in scope for this computation but unused. -/
def G (betaP betaA tauE tauP tauI tauD f d : ℚ) : Matrix (Fin 4) (Fin 4) ℚ :=
  F betaP betaA * inv4 (V tauE tauP tauI tauD f d)

/-- A rational `x` is an eigenvalue of `A` precisely when `det (x • 1 - A) = 0`;
these are the numbers the `la.eig` call returns for a matrix whose spectrum is
rational. -/
def isEigenvalue (A : Matrix (Fin 4) (Fin 4) ℚ) (x : ℚ) : Prop :=
  (x • (1 : Matrix (Fin 4) (Fin 4) ℚ) - A).det = 0

/-- The eigenvalue set of the next-generation matrix, as a function of the
notebook's ten global parameters (of which `betaS` is accepted but, as in the
source, unused by `F` and hence by `G`).  The notebook's
`R_0 = np.max(la.eig(G)[:1])` is the greatest element of this set. -/
def eigSet (betaP betaA betaS tauE tauP tauI tauD f d : ℚ) : Set ℚ :=
  {x | isEigenvalue (G betaP betaA tauE tauP tauI tauD f d) x}

/-- Closed form for the dominant eigenvalue as claimed by the specification:
`betaP*tauP + betaA*f*tauI + betaA*(1-f)/((1-d)/tauI + d/tauD)`. -/
def R0closedForm (betaP betaA tauP tauI tauD f d : ℚ) : ℚ :=
  betaP*tauP + betaA*f*tauI + betaA*(1-f)/((1-d)/tauI + d/tauD)

/-- Explicit right inverse of `V`, with the bottom-right rate abstracted as `e`. -/
theorem V_mul_right_inv (a b c e f : ℚ) (ha : a ≠ 0) (hb : b ≠ 0) (hc : c ≠ 0)
    (he : e ≠ 0) :
    (!![1/a, 0, 0, 0;
        -1/a, 1/b, 0, 0;
        0, -f/b, 1/c, 0;
        0, -(1-f)/b, 0, e] : Matrix (Fin 4) (Fin 4) ℚ) *
      !![a, 0, 0, 0;
         b, b, 0, 0;
         f*c, f*c, c, 0;
         (1-f)/e, (1-f)/e, 0, 1/e] = 1 := by
  ext i j
  fin_cases i <;> fin_cases j <;>
    simp [Matrix.mul_apply, Fin.sum_univ_four, Matrix.one_apply] <;>
    field_simp

/-- The function `inv4` agrees with Mathlib's nonsingular inverse. -/
theorem inv4_eq_inv (A : Matrix (Fin 4) (Fin 4) ℚ) : inv4 A = A⁻¹ := by
  rw [inv4, Matrix.inv_def, Ring.inverse_eq_inv']

/-- The combined removal rate `(1-d)/tauI + d/tauD` is positive for positive
durations and `d` in `[0,1]`. -/
theorem removalRate_pos (tauI tauD d : ℚ) (hI : 0 < tauI) (hD : 0 < tauD)
    (hd0 : 0 ≤ d) (hd1 : d ≤ 1) : 0 < (1-d)/tauI + d/tauD := by
  rcases eq_or_lt_of_le hd1 with h1 | h1
  · subst h1
    norm_num
    positivity
  · have h2 : 0 < (1-d)/tauI := div_pos (by linarith) hI
    have h3 : 0 ≤ d/tauD := div_nonneg hd0 hD.le
    linarith

/-- Under the validity preconditions, `inv4 (V ...)` is the explicit inverse. -/
theorem inv4_V (tauE tauP tauI tauD f d : ℚ) (hE : 0 < tauE) (hP : 0 < tauP)
    (hI : 0 < tauI) (hD : 0 < tauD) (hd0 : 0 ≤ d) (hd1 : d ≤ 1) :
    inv4 (V tauE tauP tauI tauD f d) =
      !![tauE, 0, 0, 0;
         tauP, tauP, 0, 0;
         f*tauI, f*tauI, tauI, 0;
         (1-f)/((1-d)/tauI + d/tauD), (1-f)/((1-d)/tauI + d/tauD), 0,
           1/((1-d)/tauI + d/tauD)] := by
  have he : ((1-d)/tauI + d/tauD) ≠ 0 :=
    (removalRate_pos tauI tauD d hI hD hd0 hd1).ne'
  rw [inv4_eq_inv]
  exact Matrix.inv_eq_right_inv
    (V_mul_right_inv tauE tauP tauI ((1-d)/tauI + d/tauD) f hE.ne' hP.ne' hI.ne' he)

/-- Under the validity preconditions, the next-generation matrix has only its
first row nonzero, with leading entry the closed form. -/
theorem G_explicit (betaP betaA tauE tauP tauI tauD f d : ℚ) (hE : 0 < tauE)
    (hP : 0 < tauP) (hI : 0 < tauI) (hD : 0 < tauD) (hd0 : 0 ≤ d) (hd1 : d ≤ 1) :
    G betaP betaA tauE tauP tauI tauD f d =
      !![R0closedForm betaP betaA tauP tauI tauD f d,
         R0closedForm betaP betaA tauP tauI tauD f d,
         betaA*tauI, betaA/((1-d)/tauI + d/tauD);
         0, 0, 0, 0;
         0, 0, 0, 0;
         0, 0, 0, 0] := by
  rw [G, inv4_V tauE tauP tauI tauD f d hE hP hI hD hd0 hd1]
  ext i j
  fin_cases i <;> fin_cases j <;>
    simp [F, Matrix.mul_apply, Fin.sum_univ_four, Matrix.vecHead, Matrix.vecTail,
      R0closedForm] <;>
    ring

/-- Determinant of `x • 1 - M` when only the first row of `M` is nonzero. -/
theorem det_smul_one_sub_row (x a b c e : ℚ) :
    (x • (1 : Matrix (Fin 4) (Fin 4) ℚ) -
        !![a, b, c, e; 0, 0, 0, 0; 0, 0, 0, 0; 0, 0, 0, 0]).det =
      x^3 * (x - a) := by
  have h : x • (1 : Matrix (Fin 4) (Fin 4) ℚ) -
      !![a, b, c, e; 0, 0, 0, 0; 0, 0, 0, 0; 0, 0, 0, 0] =
      !![x - a, -b, -c, -e; 0, x, 0, 0; 0, 0, x, 0; 0, 0, 0, x] := by
    ext i j
    fin_cases i <;> fin_cases j <;>
      simp [Matrix.one_apply, Matrix.vecHead, Matrix.vecTail]
  rw [h]
  simp [Matrix.det_succ_row_zero, Fin.sum_univ_succ]
  ring

/-- The eigenvalues of the next-generation matrix are exactly `0` and the
closed form. -/
theorem eigSet_eq (betaP betaA betaS tauE tauP tauI tauD f d : ℚ) (hE : 0 < tauE)
    (hP : 0 < tauP) (hI : 0 < tauI) (hD : 0 < tauD) (hd0 : 0 ≤ d) (hd1 : d ≤ 1) :
    eigSet betaP betaA betaS tauE tauP tauI tauD f d =
      {0, R0closedForm betaP betaA tauP tauI tauD f d} := by
  ext x
  simp only [eigSet, isEigenvalue, Set.mem_setOf_eq, Set.mem_insert_iff,
    Set.mem_singleton_iff]
  rw [G_explicit betaP betaA tauE tauP tauI tauD f d hE hP hI hD hd0 hd1,
    det_smul_one_sub_row]
  rw [mul_eq_zero, pow_eq_zero_iff (by norm_num : 3 ≠ 0), sub_eq_zero]

/-- The closed form is non-negative for non-negative transmission rates. -/
theorem R0closedForm_nonneg (betaP betaA tauP tauI tauD f d : ℚ)
    (hbP : 0 ≤ betaP) (hbA : 0 ≤ betaA) (hP : 0 < tauP) (hI : 0 < tauI)
    (hD : 0 < tauD) (hf0 : 0 ≤ f) (hf1 : f ≤ 1) (hd0 : 0 ≤ d) (hd1 : d ≤ 1) :
    0 ≤ R0closedForm betaP betaA tauP tauI tauD f d := by
  have he : 0 < (1-d)/tauI + d/tauD := removalRate_pos tauI tauD d hI hD hd0 hd1
  have h1 : 0 ≤ betaP*tauP := mul_nonneg hbP hP.le
  have h2 : 0 ≤ betaA*f*tauI := mul_nonneg (mul_nonneg hbA hf0) hI.le
  have h3 : 0 ≤ betaA*(1-f)/((1-d)/tauI + d/tauD) :=
    div_nonneg (mul_nonneg hbA (by linarith)) he.le
  simp only [R0closedForm]
  linarith

/-- The closed form is the greatest element of the eigenvalue set. -/
theorem isGreatest_eigSet (betaP betaA betaS tauE tauP tauI tauD f d : ℚ)
    (hbP : 0 ≤ betaP) (hbA : 0 ≤ betaA) (hE : 0 < tauE) (hP : 0 < tauP)
    (hI : 0 < tauI) (hD : 0 < tauD) (hf0 : 0 ≤ f) (hf1 : f ≤ 1)
    (hd0 : 0 ≤ d) (hd1 : d ≤ 1) :
    IsGreatest (eigSet betaP betaA betaS tauE tauP tauI tauD f d)
      (R0closedForm betaP betaA tauP tauI tauD f d) := by
  rw [eigSet_eq betaP betaA betaS tauE tauP tauI tauD f d hE hP hI hD hd0 hd1]
  have h0 : 0 ≤ R0closedForm betaP betaA tauP tauI tauD f d :=
    R0closedForm_nonneg betaP betaA tauP tauI tauD f d hbP hbA hP hI hD hf0 hf1 hd0 hd1
  constructor
  · exact Set.mem_insert_iff.mpr (Or.inr rfl)
  · rintro x (rfl | rfl)
    · exact h0
    · exact le_refl _

/-- The determinant of the transition matrix is the product of its diagonal. -/
theorem det_V (tauE tauP tauI tauD f d : ℚ) :
    (V tauE tauP tauI tauD f d).det =
      (1/tauE)*(1/tauP)*(1/tauI)*((1-d)/tauI + d/tauD) := by
  simp [V, Matrix.det_succ_row_zero, Fin.sum_univ_succ, Matrix.vecHead, Matrix.vecTail]
  ring

/-- C9: for strictly positive durations and `d` in `[0,1]`, the transition
matrix `V` has the nonzero determinant
`(1/tauE)*(1/tauP)*(1/tauI)*((1-d)/tauI + d/tauD)` and is invertible, so the
singular-matrix branch of `G = F * V⁻¹` is unreachable. -/
theorem c9_V_invertible (tauE tauP tauI tauD f d : ℚ) (hE : 0 < tauE)
    (hP : 0 < tauP) (hI : 0 < tauI) (hD : 0 < tauD) (hd0 : 0 ≤ d) (hd1 : d ≤ 1) :
    (V tauE tauP tauI tauD f d).det =
        (1/tauE)*(1/tauP)*(1/tauI)*((1-d)/tauI + d/tauD) ∧
      (V tauE tauP tauI tauD f d).det ≠ 0 ∧ IsUnit (V tauE tauP tauI tauD f d) := by
  have he : 0 < (1-d)/tauI + d/tauD := removalRate_pos tauI tauD d hI hD hd0 hd1
  have hdet : (V tauE tauP tauI tauD f d).det =
      (1/tauE)*(1/tauP)*(1/tauI)*((1-d)/tauI + d/tauD) := det_V tauE tauP tauI tauD f d
  have hne : (V tauE tauP tauI tauD f d).det ≠ 0 := by
    rw [hdet]
    positivity
  exact ⟨hdet, hne, (Matrix.isUnit_iff_isUnit_det _).mpr (isUnit_iff_ne_zero.mpr hne)⟩

/-- Witness for C9 at the notebook parameter set. -/
theorem c9_V_invertible_witness :
    (V (7/2) (3/2) (7/2) 14 (3/10) (1/20)).det =
        (1/(7/2))*(1/(3/2))*(1/(7/2))*((1-(1/20))/(7/2) + (1/20)/14) ∧
      (V (7/2) (3/2) (7/2) 14 (3/10) (1/20)).det ≠ 0 ∧
      IsUnit (V (7/2) (3/2) (7/2) 14 (3/10) (1/20)) :=
  c9_V_invertible (7/2) (3/2) (7/2) 14 (3/10) (1/20) (by norm_num) (by norm_num)
    (by norm_num) (by norm_num) (by norm_num) (by norm_num)

/-- C10: for valid parameters the matrix pipeline reduces to the closed form:
the greatest eigenvalue of `G = F * V⁻¹` is
`betaP*tauP + betaA*f*tauI + betaA*(1-f)/((1-d)/tauI + d/tauD)`, and the
eigenvalue set of `G` is exactly `{0, closed form}`. -/
theorem c10_closed_form (betaP betaA betaS tauE tauP tauI tauD f d : ℚ)
    (hbP : 0 < betaP) (hbA : 0 < betaA) (hE : 0 < tauE) (hP : 0 < tauP)
    (hI : 0 < tauI) (hD : 0 < tauD) (hf0 : 0 ≤ f) (hf1 : f ≤ 1)
    (hd0 : 0 ≤ d) (hd1 : d ≤ 1) :
    IsGreatest (eigSet betaP betaA betaS tauE tauP tauI tauD f d)
        (R0closedForm betaP betaA tauP tauI tauD f d) ∧
      eigSet betaP betaA betaS tauE tauP tauI tauD f d =
        {0, R0closedForm betaP betaA tauP tauI tauD f d} :=
  ⟨isGreatest_eigSet betaP betaA betaS tauE tauP tauI tauD f d hbP.le hbA.le hE hP hI
      hD hf0 hf1 hd0 hd1,
    eigSet_eq betaP betaA betaS tauE tauP tauI tauD f d hE hP hI hD hd0 hd1⟩

/-- Witness for C10 at the notebook parameter set. -/
theorem c10_closed_form_witness :
    IsGreatest (eigSet (4/5) (4/5) (4/5) (7/2) (3/2) (7/2) 14 (3/10) (1/20))
        (R0closedForm (4/5) (4/5) (3/2) (7/2) 14 (3/10) (1/20)) ∧
      eigSet (4/5) (4/5) (4/5) (7/2) (3/2) (7/2) 14 (3/10) (1/20) =
        {0, R0closedForm (4/5) (4/5) (3/2) (7/2) 14 (3/10) (1/20)} :=
  c10_closed_form (4/5) (4/5) (4/5) (7/2) (3/2) (7/2) 14 (3/10) (1/20)
    (by norm_num) (by norm_num) (by norm_num) (by norm_num) (by norm_num)
    (by norm_num) (by norm_num) (by norm_num) (by norm_num) (by norm_num)

/-- C4: for every valid parameter set the reproduction-number computation has a
well-defined output, namely the greatest element of the eigenvalue set of `G`
(the eigenvalue with the largest value, not an arbitrary list position), and
that output is non-negative. -/
theorem c4_R0_greatest_nonneg (betaP betaA betaS tauE tauP tauI tauD f d : ℚ)
    (hbP : 0 < betaP) (hbA : 0 < betaA) (hE : 0 < tauE) (hP : 0 < tauP)
    (hI : 0 < tauI) (hD : 0 < tauD) (hf0 : 0 ≤ f) (hf1 : f ≤ 1)
    (hd0 : 0 ≤ d) (hd1 : d ≤ 1) :
    ∃ r, IsGreatest (eigSet betaP betaA betaS tauE tauP tauI tauD f d) r ∧ 0 ≤ r :=
  ⟨R0closedForm betaP betaA tauP tauI tauD f d,
    isGreatest_eigSet betaP betaA betaS tauE tauP tauI tauD f d hbP.le hbA.le hE hP hI
      hD hf0 hf1 hd0 hd1,
    R0closedForm_nonneg betaP betaA tauP tauI tauD f d hbP.le hbA.le hP hI hD hf0 hf1
      hd0 hd1⟩

/-- Witness for C4 at the notebook parameter set. -/
theorem c4_R0_greatest_nonneg_witness :
    ∃ r, IsGreatest (eigSet (4/5) (4/5) (4/5) (7/2) (3/2) (7/2) 14 (3/10) (1/20)) r ∧
      0 ≤ r :=
  c4_R0_greatest_nonneg (4/5) (4/5) (4/5) (7/2) (3/2) (7/2) 14 (3/10) (1/20)
    (by norm_num) (by norm_num) (by norm_num) (by norm_num) (by norm_num)
    (by norm_num) (by norm_num) (by norm_num) (by norm_num) (by norm_num)

/-- C2: at the notebook parameter set the dominant eigenvalue of `G` is exactly
`1121/275 = 4.0763636...`, which is within `0.01` of `4.076`. -/
theorem c2_R0_value :
    IsGreatest (eigSet (4/5) (4/5) (4/5) (7/2) (3/2) (7/2) 14 (3/10) (1/20))
        (1121/275) ∧
      |(1121/275 : ℚ) - 4076/1000| < 1/100 := by
  constructor
  · have h := isGreatest_eigSet (4/5) (4/5) (4/5) (7/2) (3/2) (7/2) 14 (3/10) (1/20)
      (by norm_num) (by norm_num) (by norm_num) (by norm_num) (by norm_num)
      (by norm_num) (by norm_num) (by norm_num) (by norm_num) (by norm_num)
    have hv : R0closedForm (4/5) (4/5) (3/2) (7/2) 14 (3/10) (1/20) = 1121/275 := by
      norm_num [R0closedForm]
    rwa [hv] at h
  · rw [abs_lt]
    constructor <;> norm_num

/-- C5: two parameter sets differing only in `betaS` give the same eigenvalue
set for `G` (`betaS` does not flow into `F`), whereas the `SEIR` derivative
does depend on `betaS`: at `S = Is = 1`, `N = 1` with all rates zero except
`betaS`, changing `betaS` from `0` to `1` changes the output. -/
theorem c5_betaS_independence (betaP betaA betaS betaS' tauE tauP tauI tauD f d : ℚ) :
    eigSet betaP betaA betaS tauE tauP tauI tauD f d =
        eigSet betaP betaA betaS' tauE tauP tauI tauD f d ∧
      SEIR ⟨1, 0, 0, 0, 1, 0⟩ 0 0 0 0 1 1 1 1 0 0 1 ≠
        SEIR ⟨1, 0, 0, 0, 1, 0⟩ 0 0 0 1 1 1 1 1 0 0 1 := by
  refine ⟨rfl, ?_⟩
  norm_num [SEIR, State.mk.injEq]

/-- C8 (amended): the integrator performs no validation of the initial state:
for every initial state, every time grid and every parameter set it runs the
numeric integration and returns one state per requested time point; no
InvalidInitialState failure exists in the code. -/
theorem c8_no_validation (y0 : State) (ts : List ℚ)
    (betaP betaA betaS tauE tauP tauI tauD f d N : ℚ) :
    (odeint (fun y t => SEIR y t betaP betaA betaS tauE tauP tauI tauD f d N) y0
      ts).length = ts.length :=
  odeint_length _ y0 ts

/-- C8 counterexample: the state `(1,1,1,1,1,1)` sums to `6`, far from
`N = 4900000` (beyond any small tolerance), yet the integrator returns a
normal three-point trajectory for the grid `[0, 1, 2]` instead of failing. -/
theorem c8_counterexample :
    (State.total ⟨1, 1, 1, 1, 1, 1⟩ ≠ 4900000) ∧
      (odeint (fun y t => SEIR y t (4/5) (4/5) (4/5) (7/2) (3/2) (7/2) 14 (3/10)
          (1/20) 4900000) ⟨1, 1, 1, 1, 1, 1⟩ [0, 1, 2]).length = 3 := by
  refine ⟨by norm_num [State.total], ?_⟩
  rw [odeint_length]
  rfl

end Covid
